import Mathlib

/-!
Shallow embedding of the ReduceMe state-container core, translated from
src/src/actions.ts, src/src/slice.ts, src/src/store.ts and
src/src/types.d.ts.

Modelling conventions.
JavaScript reference identity is carried explicitly: a sub-state value of
type V is compared with the equality of V where the source compares with
strict inequality, so V is understood as a type of identity-carrying
values; a root state object is a RootState record whose id field plays
the role of the object reference, and a freshly allocated object receives
an id that was never used before.  Fallible computations return an
Except value or record an Option JsError.  Effectful client code
(case handlers and listeners) is deep-embedded as small scripts of
primitive steps and interpreted against the store, with a fuel bound on
nested dispatch recursion.
-/

namespace ReduceMe

/-- An action record with a type string and a payload, from types.d.ts. -/
structure Action (P : Type) where
  type : String
  payload : P
deriving DecidableEq

/-- Outcome of running a case handler on a draft: the final value of the
draft, whether the handler wrote to the draft at all, and the value the
handler explicitly returned (none when the handler returned nothing).
This embeds ActionHandler from types.d.ts, whose declared result type is
void or StateType. -/
structure HandlerOutcome (V : Type) where
  draft : V
  touched : Bool
  ret : Option V

/-- A case handler: given the draft value and the incoming action, it
yields a HandlerOutcome. -/
abbrev CaseHandler (V P : Type) : Type := V → Action P → HandlerOutcome V

/-- Modelled from the spec: the external structural-sharing update
capability, namely the immer produce import of src/src/slice.ts, which is
not part of this repository.  Contract from section 6 of the spec: given
a base value and a recipe operating on a draft of that value, (a) an
untouched draft yields the base value itself, (b) draft mutations yield
the mutated value, and (c) if the recipe explicitly returns a replacement
value, that value is used verbatim instead of the draft. -/
def produce {V : Type} (base : V) (recipe : V → HandlerOutcome V) : V :=
  match recipe base with
  | ⟨_, _, some v⟩ => v
  | ⟨d, touched, none⟩ => if touched then d else base

/-- The routing table built by createSlice, src/src/slice.ts lines 75 to
82: each handler key is turned into the qualified action type formed from
the slice name, a slash and the key. -/
def caseReducersOf {V P : Type} (name : String)
    (reducers : List (String × CaseHandler V P)) :
    List (String × CaseHandler V P) :=
  reducers.map (fun kv => (name ++ "/" ++ kv.1, kv.2))

/-- The reducer produced by createSlice, src/src/slice.ts lines 85 to 91.
The recipe handed to produce is a block-bodied arrow function that calls
the handler and itself returns nothing, so the draft mutations of the
handler are kept but the value the handler explicitly returns is
discarded: its ret field is replaced by none before produce sees it. -/
def sliceReducer {V P : Type} (name : String) (initialState : V)
    (reducers : List (String × CaseHandler V P)) :
    Option V → Action P → V :=
  fun state? action =>
    let state := state?.getD initialState
    match (caseReducersOf name reducers).lookup action.type with
    | none => state
    | some handler =>
        produce state (fun draftState =>
          { handler draftState action with ret := none })

/-- JavaScript object property assignment: overwrite the existing entry
for the key, otherwise append a new one. -/
def setKey {β : Type} (m : List (String × β)) (k : String) (v : β) :
    List (String × β) :=
  if (m.lookup k).isSome then
    m.map (fun kv => if kv.1 = k then (k, v) else kv)
  else m ++ [(k, v)]

/-- The builder of extra cases, src/src/slice.ts lines 100 to 123. -/
structure ReducerBuilder (V P : Type) where
  extraReducers : List (String × CaseHandler V P)

/-- ReducerBuilder.addCase, src/src/slice.ts lines 104 to 111: the action
type is read off the creator by applying it to a dummy payload, as the
source does with an empty object cast to the payload type. -/
def ReducerBuilder.addCase {V P : Type} (b : ReducerBuilder V P)
    (actionCreator : P → Action P) (dummy : P) (r : CaseHandler V P) :
    ReducerBuilder V P :=
  { extraReducers := setKey b.extraReducers (actionCreator dummy).type r }

/-- ReducerBuilder.addDefaultCase, src/src/slice.ts lines 117 to 122. -/
def ReducerBuilder.addDefaultCase {V P : Type} (b : ReducerBuilder V P)
    (r : CaseHandler V P) : ReducerBuilder V P :=
  { extraReducers := setKey b.extraReducers "DEFAULT" r }

/-- ReducerBuilder.build, src/src/slice.ts lines 113 to 115. -/
def ReducerBuilder.build {V P : Type} (b : ReducerBuilder V P) :
    List (String × CaseHandler V P) :=
  b.extraReducers

/-- The reducer of the slice returned by createSlice when the options
carry an extraReducers builder callback, src/src/slice.ts lines 67 to 98.
The source destructures only name, initialState and reducers from the
options; the extraReducers callback is never invoked, so the produced
reducer is exactly sliceReducer. -/
def createSliceReducer {V P : Type} (name : String) (initialState : V)
    (reducers : List (String × CaseHandler V P))
    (_extra : Option (ReducerBuilder V P → ReducerBuilder V P)) :
    Option V → Action P → V :=
  sliceReducer name initialState reducers

/-- Modelled from the spec: the wiring of the extraReducers builder into
the slice reducer, which src/src/slice.ts declares (the extraReducers
option of CreateSliceOptions and the ReducerBuilder class) but never
invokes.  Section 4.1 of the spec: extra cases are keyed by externally
supplied action identifiers; when no specific case matches, the single
default case, if registered, is applied and its result is kept only if it
actually changes the state; a case handler may mutate the draft or
explicitly return a replacement value, which is then used verbatim. -/
def sliceReducerWithExtras {V P : Type} [DecidableEq V] (name : String)
    (initialState : V) (reducers : List (String × CaseHandler V P))
    (extra : Option (ReducerBuilder V P → ReducerBuilder V P)) :
    Option V → Action P → V :=
  fun state? action =>
    let state := state?.getD initialState
    let extraCases :=
      match extra with
      | none => []
      | some f => (f { extraReducers := [] }).build
    let table :=
      caseReducersOf name reducers
        ++ extraCases.filter (fun kv => kv.1 != "DEFAULT")
    match table.lookup action.type with
    | some handler => produce state (fun draftState => handler draftState action)
    | none =>
        match extraCases.lookup "DEFAULT" with
        | some handler =>
            let result := produce state (fun draftState => handler draftState action)
            if result = state then state else result
        | none => state

/-- A slice reducer configuration, interface StateReducerConfig of
types.d.ts: an initial state and a reducer taking a possibly undefined
previous state. -/
structure StateReducerConfig (V P : Type) where
  initialState : V
  reducer : Option V → Action P → V

/-- A root state object: its JavaScript object identity (the id field),
its own enumerable string-keyed entries in insertion order, and whether
the object is frozen. -/
structure RootState (V : Type) where
  id : Nat
  entries : List (String × V)
  frozen : Bool
deriving DecidableEq

/-- combineReducers, src/src/store.ts lines 197 to 217: run every slice
reducer on its sub-state, collect the results, and return the freshly
allocated object only if at least one sub-state changed by reference,
otherwise return the original state object itself.  The freshId argument
is the identity of the object literal allocated for nextState; the caller
passes an id not used by any live object.  The default parameter making
an undefined state an empty object never fires inside the store, whose
state is always defined, and is omitted here. -/
def combineReducers {V P : Type} [DecidableEq V]
    (reducers : List (String × StateReducerConfig V P)) (freshId : Nat)
    (state : RootState V) (action : Action P) : RootState V :=
  let r := reducers.foldl
    (fun acc kv =>
      let previousStateForKey := state.entries.lookup kv.1
      let nextStateForKey := kv.2.reducer previousStateForKey action
      (acc.1 ++ [(kv.1, nextStateForKey)],
       acc.2 || decide (some nextStateForKey ≠ previousStateForKey)))
    ([], false)
  if r.2 then { id := freshId, entries := r.1, frozen := false } else state

/-- The composition routine of the store, src/src/store.ts lines 138 to
148: zero functions give the identity arrow; otherwise reduce from the
left, which nests the head of the list outermost.  The explicit
one-function case of the source coincides with the fold over an empty
tail. -/
def compose {α : Type} (funcs : List (α → α)) : α → α :=
  match funcs with
  | [] => fun arg => arg
  | f :: rest => rest.foldl (fun a b => fun x => a (b x)) f

/-- The restricted store surface handed to middleware, interface
MiddlewareAPI of types.d.ts. -/
structure MiddlewareAPI (State A R : Type) where
  state : Unit → State
  dispatch : A → R

/-- A middleware stage: store api, then next, then the action arrow. -/
abbrev MiddlewareFn (State A R : Type) : Type :=
  MiddlewareAPI State A R → (A → R) → (A → R)

/-- The middleware application routine of the store, src/src/store.ts
lines 172 to 181: apply every stage to the store api, compose the chain
and apply the pipeline to base dispatch. -/
def applyMiddleware {State A R : Type} (api : MiddlewareAPI State A R)
    (middlewares : List (MiddlewareFn State A R)) (base : A → R) : A → R :=
  compose (middlewares.map (fun m => m api)) base

/-- A logging middleware stage as in the ordering property of section 8
of the spec: log enter, forward to next, log exit.  The result type is
the log of one dispatch. -/
def logStage (tag : String) : MiddlewareFn Unit (Action Nat) (List String) :=
  fun _api next action => ((tag ++ "-enter") :: next action) ++ [tag ++ "-exit"]

/-- A base dispatch that only logs that it ran. -/
def baseLog : Action Nat → List String := fun _ => ["base-dispatch"]

/-! ### The store interpreter

Store, src/src/store.ts.  Case handlers and listeners are deep-embedded
as scripts of primitive steps so that they can interact with the store:
a handler may mutate its draft, throw, dispatch a nested action or read
the state, and a listener may dispatch or read the state.  The
interpreter threads the store record through these scripts and records a
trace of observable events.  Nested dispatch recursion is bounded by a
fuel argument; running out of fuel is reported by a bookkeeping error
value that corresponds to no source behaviour. -/

/-- Errors thrown by the engine or by user code.  The constructor
reentrantDispatch stands for the error thrown at src/src/store.ts line
113, cannotCallWhenDispatching for the one at line 50, and userError for
an exception raised by a case handler itself. -/
inductive JsError where
  | reentrantDispatch
  | cannotCallWhenDispatching
  | userError (msg : String)
  | fuelExhausted
deriving DecidableEq

/-- Observable events recorded by the interpreter. -/
inductive Event (V : Type) where
  | innerDispatchOk
  | innerDispatchErr (e : JsError)
  | stateRead (snapshot : RootState V)
  | stateReadErr (e : JsError)
  | listenerRun (id : Nat)
deriving DecidableEq

/-- One step of a case handler body: mutate the draft, throw, call the
store dispatch (catching the failure or letting it propagate), or call
the guarded state accessor. -/
inductive HStep (V P : Type) where
  | mutate (f : V → V)
  | hthrow (msg : String)
  | innerDispatch (a : Action P) (catchErr : Bool)
  | readState (catchErr : Bool)

/-- One step of a listener body. -/
inductive LStep (P : Type) where
  | dispatchStep (a : Action P) (catchErr : Bool)
  | readStateStep (catchErr : Bool)

/-- A slice as registered with the store: its initial state and its
routing table from qualified action types to handler scripts, as built by
createSlice. -/
structure SliceDef (V P : Type) where
  initialState : V
  caseReducers : List (String × List (HStep V P))

/-- The store record: the slice configurations the root reducer is
combined from, the current root state object, the reentrancy flag, the
listener set in insertion order (each listener identified by a numeric
id standing for the function object added to the set), the next fresh
listener id and the next fresh object id. -/
structure StoreM (V P : Type) where
  slices : List (String × SliceDef V P)
  root : RootState V
  isDispatching : Bool
  listeners : List (Nat × List (LStep P))
  nextListenerId : Nat
  nextObjId : Nat

/-- Result of a dispatch or of a listener body: the resulting store, the
trace of events, and the error that propagated, if any. -/
structure StepRes (V P : Type) where
  store : StoreM V P
  trace : List (Event V)
  err : Option JsError

/-- Result of a handler body: the resulting store, the draft value,
whether the draft was written to, the trace, and the propagated error. -/
structure HandlerRes (V P : Type) where
  store : StoreM V P
  draft : V
  touched : Bool
  trace : List (Event V)
  err : Option JsError

/-- Result of the combineReducers loop over the slice list: the
resulting store, the collected next entries, the change flag, the trace,
and the propagated error. -/
structure SlicesRes (V P : Type) where
  store : StoreM V P
  entries : List (String × V)
  hasChanged : Bool
  trace : List (Event V)
  err : Option JsError

/-- Store.state, src/src/store.ts lines 49 to 52: throw while a dispatch
is in progress, otherwise return a frozen shallow copy of the current
state.  The copy is a new object: it receives the next unused object id,
shares the entry list of the current state, and is marked frozen. -/
def stateFn {V P : Type} (σ : StoreM V P) :
    Except JsError (RootState V) × StoreM V P :=
  if σ.isDispatching then (.error .cannotCallWhenDispatching, σ)
  else
    (.ok { id := σ.nextObjId, entries := σ.root.entries, frozen := true },
     { σ with nextObjId := σ.nextObjId + 1 })

/-- Interpreter for a handler body.  The disp argument is the dispatch
function used for nested dispatch calls. -/
def runHSteps {V P : Type} (disp : StoreM V P → Action P → StepRes V P) :
    StoreM V P → List (HStep V P) → V → Bool → HandlerRes V P
  | σ, [], d, t => ⟨σ, d, t, [], none⟩
  | σ, .mutate f :: rest, d, _ => runHSteps disp σ rest (f d) true
  | σ, .hthrow msg :: _, d, t => ⟨σ, d, t, [], some (.userError msg)⟩
  | σ, .innerDispatch a catchErr :: rest, d, t =>
      let r := disp σ a
      match r.err with
      | none =>
          let k := runHSteps disp r.store rest d t
          ⟨k.store, k.draft, k.touched, r.trace ++ .innerDispatchOk :: k.trace, k.err⟩
      | some e =>
          if catchErr then
            let k := runHSteps disp r.store rest d t
            ⟨k.store, k.draft, k.touched, r.trace ++ .innerDispatchErr e :: k.trace, k.err⟩
          else ⟨r.store, d, t, r.trace ++ [.innerDispatchErr e], some e⟩
  | σ, .readState catchErr :: rest, d, t =>
      match stateFn σ with
      | (.ok snap, σ2) =>
          let k := runHSteps disp σ2 rest d t
          ⟨k.store, k.draft, k.touched, .stateRead snap :: k.trace, k.err⟩
      | (.error e, σ2) =>
          if catchErr then
            let k := runHSteps disp σ2 rest d t
            ⟨k.store, k.draft, k.touched, .stateReadErr e :: k.trace, k.err⟩
          else ⟨σ2, d, t, [.stateReadErr e], some e⟩

/-- Interpreter for a listener body. -/
def runLSteps {V P : Type} (disp : StoreM V P → Action P → StepRes V P) :
    StoreM V P → List (LStep P) → StepRes V P
  | σ, [] => ⟨σ, [], none⟩
  | σ, .dispatchStep a catchErr :: rest =>
      let r := disp σ a
      match r.err with
      | none =>
          let k := runLSteps disp r.store rest
          ⟨k.store, r.trace ++ .innerDispatchOk :: k.trace, k.err⟩
      | some e =>
          if catchErr then
            let k := runLSteps disp r.store rest
            ⟨k.store, r.trace ++ .innerDispatchErr e :: k.trace, k.err⟩
          else ⟨r.store, r.trace ++ [.innerDispatchErr e], some e⟩
  | σ, .readStateStep catchErr :: rest =>
      match stateFn σ with
      | (.ok snap, σ2) =>
          let k := runLSteps disp σ2 rest
          ⟨k.store, .stateRead snap :: k.trace, k.err⟩
      | (.error e, σ2) =>
          if catchErr then
            let k := runLSteps disp σ2 rest
            ⟨k.store, .stateReadErr e :: k.trace, k.err⟩
          else ⟨σ2, [.stateReadErr e], some e⟩

/-- The combineReducers loop over the slice list, as run by the root
reducer built in Store.create: for each key, look up the previous
sub-state, run the slice reducer of createSlice on it (pass through when
the action type has no handler, otherwise run the handler script against
a fresh draft under the produce contract, the recipe return being
discarded as in the source), collect the next entry and accumulate the
change flag.  A handler exception aborts the loop, so no entry list is
committed. -/
def runSlices {V P : Type} [DecidableEq V]
    (disp : StoreM V P → Action P → StepRes V P) (a : Action P)
    (rootEntries : List (String × V)) :
    StoreM V P → List (String × SliceDef V P) → SlicesRes V P
  | σ, [] => ⟨σ, [], false, [], none⟩
  | σ, (key, sd) :: rest =>
      let previousStateForKey := rootEntries.lookup key
      let sliceState := previousStateForKey.getD sd.initialState
      match sd.caseReducers.lookup a.type with
      | none =>
          let r := runSlices disp a rootEntries σ rest
          ⟨r.store, (key, sliceState) :: r.entries,
           decide (some sliceState ≠ previousStateForKey) || r.hasChanged,
           r.trace, r.err⟩
      | some script =>
          let h := runHSteps disp σ script sliceState false
          match h.err with
          | some e => ⟨h.store, [], false, h.trace, some e⟩
          | none =>
              let nextStateForKey := if h.touched then h.draft else sliceState
              let r := runSlices disp a rootEntries h.store rest
              ⟨r.store, (key, nextStateForKey) :: r.entries,
               decide (some nextStateForKey ≠ previousStateForKey) || r.hasChanged,
               h.trace ++ r.trace, r.err⟩

/-- Listener notification, src/src/store.ts line 122: run every listener
of the set in insertion order; a listener exception propagates and stops
the iteration. -/
def notifyAll {V P : Type} (disp : StoreM V P → Action P → StepRes V P) :
    StoreM V P → List (Nat × List (LStep P)) → StepRes V P
  | σ, [] => ⟨σ, [], none⟩
  | σ, (i, script) :: rest =>
      let r := runLSteps disp σ script
      match r.err with
      | some e => ⟨r.store, .listenerRun i :: r.trace, some e⟩
      | none =>
          let n := notifyAll disp r.store rest
          ⟨n.store, .listenerRun i :: r.trace ++ n.trace, n.err⟩

/-- Store._baseDispatch, src/src/store.ts lines 111 to 123, with the
root reducer inlined as the combineReducers loop over the slice reducers
of the store, the way Store.create builds it.  Throw if the reentrancy
flag is set; otherwise set the flag, run the root reducer, commit the
resulting state (the same object when nothing changed, a freshly
allocated object otherwise), clear the flag even on a reducer exception,
and only then notify the listeners. -/
def baseDispatchGo {V P : Type} [DecidableEq V]
    (disp : StoreM V P → Action P → StepRes V P)
    (σ : StoreM V P) (a : Action P) : StepRes V P :=
  if σ.isDispatching then ⟨σ, [], some .reentrantDispatch⟩
  else
    let σ1 := { σ with isDispatching := true }
    let r := runSlices disp a σ1.root.entries σ1 σ1.slices
    match r.err with
    | some e => ⟨{ r.store with isDispatching := false }, r.trace, some e⟩
    | none =>
        let σ2 :=
          if r.hasChanged then
            { r.store with
              root := { id := r.store.nextObjId, entries := r.entries, frozen := false },
              nextObjId := r.store.nextObjId + 1,
              isDispatching := false }
          else { r.store with isDispatching := false }
        let n := notifyAll disp σ2 σ2.listeners
        ⟨n.store, r.trace ++ n.trace, n.err⟩

/-- The dispatch entry point of a store without middleware, which the
constructor binds directly to the base dispatch, src/src/store.ts line
38.  The fuel bounds the depth of nested dispatch calls; the zero-fuel
case still performs the reentrancy check first, exactly as the base
dispatch does, and otherwise reports fuel exhaustion. -/
def dispatchFuel {V P : Type} [DecidableEq V] :
    Nat → StoreM V P → Action P → StepRes V P
  | 0, σ, _ =>
      if σ.isDispatching then ⟨σ, [], some .reentrantDispatch⟩
      else ⟨σ, [], some .fuelExhausted⟩
  | fuel + 1, σ, a => baseDispatchGo (dispatchFuel fuel) σ a

/-- Store.registerListener, src/src/store.ts lines 88 to 93: add the
listener to the set and hand back its id, with which the returned
capability removes it. -/
def registerListener {V P : Type} (σ : StoreM V P)
    (script : List (LStep P)) : StoreM V P × Nat :=
  ({ σ with listeners := σ.listeners ++ [(σ.nextListenerId, script)],
            nextListenerId := σ.nextListenerId + 1 },
   σ.nextListenerId)

/-- The unregister capability returned by registerListener: delete the
listener with the given id from the set. -/
def unregisterListener {V P : Type} (σ : StoreM V P) (i : Nat) : StoreM V P :=
  { σ with listeners := σ.listeners.filter (fun p => p.1 != i) }

/-- Extract the id of a listener invocation event. -/
def listenerRunOf {V : Type} : Event V → Option Nat
  | .listenerRun i => some i
  | _ => none

/-- Extract the entry list of a successful state read event. -/
def stateReadEntriesOf {V : Type} : Event V → Option (List (String × V))
  | .stateRead s => some s.entries
  | _ => none

/-- Build a store that is not mid-dispatch, as Store.create leaves it:
the given slice configurations, the given root state object, the given
listener set, and fresh-id counters. -/
def mkStore {V P : Type} (slices : List (String × SliceDef V P))
    (root : RootState V) (ls : List (Nat × List (LStep P)))
    (lid nid : Nat) : StoreM V P :=
  { slices := slices, root := root, isDispatching := false,
    listeners := ls, nextListenerId := lid, nextObjId := nid }

/-- The slice of the counter example of section 8 of the spec, reduced to
its increment handler. -/
def counterSlice : SliceDef Int Int :=
  { initialState := 0,
    caseReducers := [("counter/inc", [HStep.mutate (fun x => x + 1)])] }

/-- A concrete counter store with no listeners. -/
def demoStore : StoreM Int Int :=
  mkStore [("counter", counterSlice)]
    { id := 0, entries := [("counter", 0)], frozen := false } [] 0 1

/-- A concrete counter store with one listener that reads the state
(letting a failure propagate) and then dispatches a counter increment
(catching a failure). -/
def c10Store : StoreM Int Int :=
  mkStore [("counter", counterSlice)]
    { id := 0, entries := [("counter", 0)], frozen := false }
    [(0, [LStep.readStateStep false,
          LStep.dispatchStep { type := "counter/inc", payload := 0 } true])]
    0 1

/-- A slice whose routing table holds a single handler script for one
action type. -/
def scriptSlice {V P : Type} (init : V) (t : String)
    (script : List (HStep V P)) : SliceDef V P :=
  { initialState := init, caseReducers := [(t, script)] }

/-! ### Helper lemmas -/

/-- A fold that appends one mapped element and accumulates a boolean
disjunct per list element is a map plus an any. -/
theorem foldl_map_any {κ β : Type} (l : List κ) (g : κ → β) (c : κ → Bool)
    (acc : List β) (b : Bool) :
    l.foldl (fun acc k => (acc.1 ++ [g k], acc.2 || c k)) (acc, b)
      = (acc ++ l.map g, b || l.any c) := by
  induction l generalizing acc b with
  | nil => simp
  | cons x xs ih => simp [ih, List.append_assoc, Bool.or_assoc]

/-- Closed form of combineReducers: an if on whether any slice reducer
changed its sub-state by identity. -/
theorem combineReducers_eq {V P : Type} [DecidableEq V]
    (reducers : List (String × StateReducerConfig V P)) (freshId : Nat)
    (state : RootState V) (action : Action P) :
    combineReducers reducers freshId state action =
      if reducers.any (fun kv =>
           decide (some (kv.2.reducer (state.entries.lookup kv.1) action)
             ≠ state.entries.lookup kv.1))
      then { id := freshId,
             entries := reducers.map (fun kv =>
               (kv.1, kv.2.reducer (state.entries.lookup kv.1) action)),
             frozen := false }
      else state := by
  unfold combineReducers
  rw [foldl_map_any reducers
       (fun kv => (kv.1, kv.2.reducer (state.entries.lookup kv.1) action))
       (fun kv => decide (some (kv.2.reducer (state.entries.lookup kv.1) action)
         ≠ state.entries.lookup kv.1))]
  cases hc : reducers.any (fun kv =>
      decide (some (kv.2.reducer (state.entries.lookup kv.1) action)
        ≠ state.entries.lookup kv.1)) <;>
    simp [hc]

/-- Applying the composed chain is a right fold of function composition. -/
theorem compose_apply {α : Type} (funcs : List (α → α)) (x : α) :
    compose funcs x
      = funcs.foldr (fun f g => fun y => f (g y)) (fun y => y) x := by
  suffices h : ∀ (rest : List (α → α)) (f : α → α) (x : α),
      rest.foldl (fun a b => fun y => a (b y)) f x
        = f (rest.foldr (fun f g => fun y => f (g y)) (fun y => y) x) by
    cases funcs with
    | nil => rfl
    | cons f rest => exact h rest f x
  intro rest
  induction rest with
  | nil => intro f x; rfl
  | cons g gs ih => intro f x; exact ih (fun y => f (g y)) x

/-! ### Claim theorems: pure components -/

/-- Claim C1.  The claim states that a handler explicitly returning a
value instead of mutating its draft makes the slice reducer return that
value verbatim.  On the code this fails: the recipe handed to produce is
a block-bodied arrow that discards the handler return, so the reducer
returns the untouched base state.  This theorem evaluates the code at
the failing input: slice counter with initial state 0, handler reset
returning 42 without touching the draft, and action counter/reset on
state 0.  The code returns 0, not 42; the spec-modelled reducer that
honours handler returns (as the repository documentation of ActionHandler
in types.d.ts describes) returns 42. -/
theorem c1_handler_return_discarded :
    sliceReducer "counter" (0 : Int)
        [("reset", fun d _ => { draft := d, touched := false, ret := some 42 })]
        (some 0) { type := "counter/reset", payload := (0 : Int) } = 0
  ∧ sliceReducer "counter" (0 : Int)
        [("reset", fun d _ => { draft := d, touched := false, ret := some 42 })]
        (some 0) { type := "counter/reset", payload := (0 : Int) } ≠ 42
  ∧ sliceReducerWithExtras "counter" (0 : Int)
        [("reset", fun d _ => { draft := d, touched := false, ret := some 42 })]
        none (some 0) { type := "counter/reset", payload := (0 : Int) } = 42 := by
  refine ⟨rfl, ?_, rfl⟩
  decide

/-- Claim C9.  The claim states that a slice created with an
extraReducers builder also handles the externally keyed actions
registered via addCase, and that its default case runs when no specific
match is found.  On the code this fails: createSlice never invokes the
extraReducers callback, so both an addCase action and an action that
should reach the default case leave the state untouched; the
spec-modelled wiring handles the addCase action.  Failing input: slice
counter with no own reducers, an extra case for type other/inc that
increments the draft, dispatched on state 5. -/
theorem c9_extraReducers_never_wired :
    createSliceReducer "counter" (0 : Int) []
        (some (fun b => b.addCase (fun p => { type := "other/inc", payload := p }) 0
          (fun d _ => { draft := d + 1, touched := true, ret := none })))
        (some 5) { type := "other/inc", payload := (0 : Int) } = 5
  ∧ createSliceReducer "counter" (0 : Int) []
        (some (fun b => b.addDefaultCase
          (fun d _ => { draft := d + 1, touched := true, ret := none })))
        (some 5) { type := "whatever", payload := (0 : Int) } = 5
  ∧ sliceReducerWithExtras "counter" (0 : Int) []
        (some (fun b => b.addCase (fun p => { type := "other/inc", payload := p }) 0
          (fun d _ => { draft := d + 1, touched := true, ret := none })))
        (some 5) { type := "other/inc", payload := (0 : Int) } = 6 :=
  ⟨rfl, rfl, rfl⟩

/-- Claim C4.  For every mapping of slice reducers and every state and
action: if every slice reducer returns its previous sub-state by
reference identity, the combined root reducer returns the original state
object itself; if at least one sub-state differs by identity, it returns
a new object (carrying the fresh identity of the allocated literal)
whose entry at each key is the result of the slice reducer at that
key. -/
theorem c4_combineReducers_referential_stability {V P : Type} [DecidableEq V]
    (reducers : List (String × StateReducerConfig V P)) (freshId : Nat)
    (state : RootState V) (action : Action P) :
    ((∀ kv ∈ reducers,
        state.entries.lookup kv.1
          = some (kv.2.reducer (state.entries.lookup kv.1) action)) →
      combineReducers reducers freshId state action = state)
  ∧ ((∃ kv ∈ reducers,
        state.entries.lookup kv.1
          ≠ some (kv.2.reducer (state.entries.lookup kv.1) action)) →
      combineReducers reducers freshId state action =
        { id := freshId,
          entries := reducers.map (fun kv =>
            (kv.1, kv.2.reducer (state.entries.lookup kv.1) action)),
          frozen := false }) := by
  rw [combineReducers_eq]
  constructor
  · intro h
    have hc : reducers.any (fun kv =>
        decide (some (kv.2.reducer (state.entries.lookup kv.1) action)
          ≠ state.entries.lookup kv.1)) = false := by
      simp only [List.any_eq_false]
      intro kv hkv hd
      exact (of_decide_eq_true hd) (h kv hkv).symm
    rw [hc]
    simp
  · rintro ⟨kv, hkv, hne⟩
    have hc : reducers.any (fun kv =>
        decide (some (kv.2.reducer (state.entries.lookup kv.1) action)
          ≠ state.entries.lookup kv.1)) = true := by
      refine List.any_eq_true.mpr ⟨kv, hkv, ?_⟩
      simp only [decide_eq_true_iff]
      exact fun he => hne he.symm
    rw [hc]
    simp

/-- Witness for claim C4: both hypotheses discharged at concrete inputs.
The pass-through reducer keeps the state object; a changing reducer
yields the freshly allocated object with the computed entries. -/
theorem c4_witness :
    combineReducers
        [("counter", { initialState := (0 : Int),
                       reducer := fun s _ => s.getD 0 })]
        7 { id := 3, entries := [("counter", (5 : Int))], frozen := false }
        { type := "noop", payload := (0 : Int) }
      = { id := 3, entries := [("counter", (5 : Int))], frozen := false }
  ∧ combineReducers
        [("counter", { initialState := (0 : Int),
                       reducer := fun s _ => s.getD 0 + 1 })]
        7 { id := 3, entries := [("counter", (5 : Int))], frozen := false }
        { type := "counter/inc", payload := (0 : Int) }
      = { id := 7, entries := [("counter", (6 : Int))], frozen := false } := by
  constructor
  · exact (c4_combineReducers_referential_stability
      [("counter", { initialState := (0 : Int), reducer := fun s _ => s.getD 0 })]
      7 { id := 3, entries := [("counter", (5 : Int))], frozen := false }
      { type := "noop", payload := (0 : Int) }).1 (by decide)
  · exact (c4_combineReducers_referential_stability
      [("counter", { initialState := (0 : Int), reducer := fun s _ => s.getD 0 + 1 })]
      7 { id := 3, entries := [("counter", (5 : Int))], frozen := false }
      { type := "counter/inc", payload := (0 : Int) }).2
      ⟨("counter", { initialState := (0 : Int), reducer := fun s _ => s.getD 0 + 1 }),
       by simp, by decide⟩

/-- Claim C5.  Composing zero middleware stages yields the identity
function; composing one stage yields that stage unchanged; composing a
list of stages yields the right-to-left composition with the first
element outermost; and with middleware list M1, M2 the execution order
around one dispatch is M1 enter, M2 enter, base dispatch, M2 exit,
M1 exit. -/
theorem c5_compose_and_middleware_order :
    (∀ (α : Type) (arg : α), compose ([] : List (α → α)) arg = arg)
  ∧ (∀ (α : Type) (f : α → α), compose [f] = f)
  ∧ (∀ (α : Type) (funcs : List (α → α)) (x : α),
       compose funcs x
         = funcs.foldr (fun f g => fun y => f (g y)) (fun y => y) x)
  ∧ (∀ (api : MiddlewareAPI Unit (Action Nat) (List String)) (x : Action Nat),
       applyMiddleware api [logStage "M1", logStage "M2"] baseLog x
         = ["M1-enter", "M2-enter", "base-dispatch", "M2-exit", "M1-exit"]) := by
  refine ⟨fun α arg => rfl, fun α f => rfl,
          fun α funcs x => compose_apply funcs x, fun api x => rfl⟩

/-! ### Interpreter lemmas -/

/-- A dispatch that starts while the reentrancy flag is set fails
immediately with the reentrancy error and changes nothing, at every
fuel. -/
theorem dispatchFuel_of_isDispatching {V P : Type} [DecidableEq V]
    (fuel : Nat) (σ : StoreM V P) (a : Action P)
    (h : σ.isDispatching = true) :
    dispatchFuel fuel σ a = ⟨σ, [], some .reentrantDispatch⟩ := by
  cases fuel with
  | zero => simp [dispatchFuel, h]
  | succ n => simp [dispatchFuel, baseDispatchGo, h]

/-- While the reentrancy flag is set, a handler body cannot change the
store, and its trace carries neither listener invocations nor successful
state reads. -/
theorem runHSteps_of_isDispatching {V P : Type} [DecidableEq V]
    (fuel : Nat) (s : List (HStep V P)) :
    ∀ (σ : StoreM V P) (d : V) (t : Bool), σ.isDispatching = true →
      (runHSteps (dispatchFuel fuel) σ s d t).store = σ
      ∧ (runHSteps (dispatchFuel fuel) σ s d t).trace.filterMap listenerRunOf = []
      ∧ (runHSteps (dispatchFuel fuel) σ s d t).trace.filterMap stateReadEntriesOf = [] := by
  induction s with
  | nil => intro σ d t h; simp [runHSteps]
  | cons step rest ih =>
    intro σ d t h
    cases step with
    | mutate f => simpa [runHSteps] using ih σ (f d) true h
    | hthrow msg => simp [runHSteps]
    | innerDispatch a catchErr =>
        have hd := dispatchFuel_of_isDispatching fuel σ a h
        cases catchErr with
        | false => simp [runHSteps, hd, listenerRunOf, stateReadEntriesOf]
        | true =>
            have hih := ih σ d t h
            simp [runHSteps, hd, listenerRunOf, stateReadEntriesOf,
                  hih.1, hih.2.1, hih.2.2]
    | readState catchErr =>
        have hs : stateFn σ = (.error .cannotCallWhenDispatching, σ) := by
          simp [stateFn, h]
        cases catchErr with
        | false => simp [runHSteps, hs, listenerRunOf, stateReadEntriesOf]
        | true =>
            have hih := ih σ d t h
            simp [runHSteps, hs, listenerRunOf, stateReadEntriesOf,
                  hih.1, hih.2.1, hih.2.2]

/-- While the reentrancy flag is set, the combineReducers loop cannot
change the store, and its trace carries neither listener invocations nor
successful state reads. -/
theorem runSlices_of_isDispatching {V P : Type} [DecidableEq V]
    (fuel : Nat) (a : Action P) (E : List (String × V))
    (slices : List (String × SliceDef V P)) :
    ∀ (σ : StoreM V P), σ.isDispatching = true →
      (runSlices (dispatchFuel fuel) a E σ slices).store = σ
      ∧ (runSlices (dispatchFuel fuel) a E σ slices).trace.filterMap listenerRunOf = []
      ∧ (runSlices (dispatchFuel fuel) a E σ slices).trace.filterMap stateReadEntriesOf = [] := by
  induction slices with
  | nil => intro σ h; simp [runSlices]
  | cons kv rest ih =>
    intro σ h
    obtain ⟨key, sd⟩ := kv
    cases hl : sd.caseReducers.lookup a.type with
    | none =>
        have hih := ih σ h
        simp only [runSlices, hl] at hih ⊢
        exact hih
    | some script =>
        have hh := runHSteps_of_isDispatching fuel script σ
          ((E.lookup key).getD sd.initialState) false h
        cases he : (runHSteps (dispatchFuel fuel) σ script
            ((E.lookup key).getD sd.initialState) false).err with
        | some e =>
            simp [runSlices, hl, he, hh.1, hh.2.1, hh.2.2]
        | none =>
            have hih := ih σ h
            simp [runSlices, hl, he, hh.1, hh.2.1, hh.2.2,
                  hih.1, hih.2.1, hih.2.2]

/-- If the nested dispatch function restores a cleared reentrancy flag,
then so does a listener body. -/
theorem runLSteps_flag_false {V P : Type}
    (disp : StoreM V P → Action P → StepRes V P)
    (hd : ∀ (σ : StoreM V P) (a : Action P), σ.isDispatching = false →
      (disp σ a).store.isDispatching = false)
    (s : List (LStep P)) :
    ∀ (σ : StoreM V P), σ.isDispatching = false →
      (runLSteps disp σ s).store.isDispatching = false := by
  induction s with
  | nil => intro σ h; simpa [runLSteps] using h
  | cons step rest ih =>
    intro σ h
    cases step with
    | dispatchStep a catchErr =>
        cases he : (disp σ a).err with
        | none => simp only [runLSteps, he]; exact ih _ (hd σ a h)
        | some e =>
            cases catchErr with
            | true => simp only [runLSteps, he, if_true]; exact ih _ (hd σ a h)
            | false => simp only [runLSteps, he, if_false]; exact hd σ a h
    | readStateStep catchErr =>
        have hs : stateFn σ =
            (.ok { id := σ.nextObjId, entries := σ.root.entries, frozen := true },
             { σ with nextObjId := σ.nextObjId + 1 }) := by
          simp [stateFn, h]
        simp only [runLSteps, hs]
        exact ih _ h

/-- If the nested dispatch function restores a cleared reentrancy flag,
then so does the listener notification loop. -/
theorem notifyAll_flag_false {V P : Type}
    (disp : StoreM V P → Action P → StepRes V P)
    (hd : ∀ (σ : StoreM V P) (a : Action P), σ.isDispatching = false →
      (disp σ a).store.isDispatching = false)
    (ls : List (Nat × List (LStep P))) :
    ∀ (σ : StoreM V P), σ.isDispatching = false →
      (notifyAll disp σ ls).store.isDispatching = false := by
  induction ls with
  | nil => intro σ h; simpa [notifyAll] using h
  | cons l rest ih =>
    intro σ h
    obtain ⟨i, script⟩ := l
    have hl := runLSteps_flag_false disp hd script σ h
    cases he : (runLSteps disp σ script).err with
    | some e => simp only [notifyAll, he]; exact hl
    | none => simp only [notifyAll, he]; exact ih _ hl

/-- A dispatch that starts outside any dispatch always hands back the
store with the reentrancy flag cleared, whether it succeeds or fails:
the flag is restored by the guaranteed cleanup and listener bodies run
only with the flag cleared. -/
theorem dispatchFuel_flag_false {V P : Type} [DecidableEq V] :
    ∀ (fuel : Nat) (σ : StoreM V P) (a : Action P), σ.isDispatching = false →
      (dispatchFuel fuel σ a).store.isDispatching = false := by
  intro fuel
  induction fuel with
  | zero => intro σ a h; simp [dispatchFuel, h]
  | succ n ih =>
    intro σ a h
    simp only [dispatchFuel, baseDispatchGo, h, Bool.false_eq_true, if_false]
    cases hr : (runSlices (dispatchFuel n) a
        ({ σ with isDispatching := true } : StoreM V P).root.entries
        { σ with isDispatching := true }
        ({ σ with isDispatching := true } : StoreM V P).slices).err with
    | some e => simp [hr]
    | none =>
        simp only [hr]
        split <;> exact notifyAll_flag_false _ ih _ _ rfl

/-- Claim C7.  The guarded state accessor raises an error exactly when
invoked while the reentrancy flag is set; at every other time it returns
a frozen shallow copy (a fresh object sharing the entry list of the
current state); and a dispatch entered from outside always hands the
store back with the flag cleared, so outside the reducer phase of
base-dispatch the accessor never fails. -/
theorem c7_state_guard {V P : Type} [DecidableEq V] (σ : StoreM V P) :
    (σ.isDispatching = true →
       stateFn σ = (.error .cannotCallWhenDispatching, σ))
  ∧ (σ.isDispatching = false →
       stateFn σ
         = (.ok { id := σ.nextObjId, entries := σ.root.entries, frozen := true },
            { σ with nextObjId := σ.nextObjId + 1 }))
  ∧ (∀ (fuel : Nat) (a : Action P), σ.isDispatching = false →
       (dispatchFuel fuel σ a).store.isDispatching = false) := by
  refine ⟨fun h => by simp [stateFn, h], fun h => by simp [stateFn, h],
          fun fuel a h => dispatchFuel_flag_false fuel σ a h⟩

/-- Witness for claim C7 at a concrete store: the accessor returns the
frozen shallow copy, and a dispatch leaves the flag cleared. -/
theorem c7_witness :
    stateFn demoStore
      = (.ok { id := 1, entries := [("counter", (0 : Int))], frozen := true },
         { demoStore with nextObjId := 2 })
  ∧ (dispatchFuel 1 demoStore
       { type := "counter/inc", payload := (0 : Int) }).store.isDispatching
      = false :=
  ⟨(c7_state_guard demoStore).2.1 rfl,
   (c7_state_guard demoStore).2.2 1 { type := "counter/inc", payload := 0 } rfl⟩

/-- Running the notification loop over listeners that only read the
state succeeds, keeps the root state object, and produces exactly one
invocation event per listener, in registration order, each accompanied by
a read observing the entries of the current root state. -/
theorem notifyAll_readState {V P : Type}
    (disp : StoreM V P → Action P → StepRes V P) (ids : List Nat) :
    ∀ (σ : StoreM V P), σ.isDispatching = false →
      (notifyAll disp σ (ids.map (fun j => (j, [LStep.readStateStep true])))).err
          = none
      ∧ (notifyAll disp σ
          (ids.map (fun j => (j, [LStep.readStateStep true])))).store.root = σ.root
      ∧ (notifyAll disp σ
          (ids.map (fun j => (j, [LStep.readStateStep true])))).trace.filterMap
            listenerRunOf = ids
      ∧ (notifyAll disp σ
          (ids.map (fun j => (j, [LStep.readStateStep true])))).trace.filterMap
            stateReadEntriesOf = ids.map (fun _ => σ.root.entries) := by
  induction ids with
  | nil => intro σ h; simp [notifyAll]
  | cons j rest ih =>
    intro σ h
    have hs : stateFn σ =
        (.ok { id := σ.nextObjId, entries := σ.root.entries, frozen := true },
         { σ with nextObjId := σ.nextObjId + 1 }) := by
      simp [stateFn, h]
    have hr : runLSteps disp σ [LStep.readStateStep true]
        = ⟨{ σ with nextObjId := σ.nextObjId + 1 },
           [.stateRead { id := σ.nextObjId, entries := σ.root.entries,
                         frozen := true }],
           none⟩ := by
      simp [runLSteps, hs]
    have hih := ih { σ with nextObjId := σ.nextObjId + 1 } h
    simp only [List.map_cons, notifyAll, hr]
    exact ⟨hih.1, hih.2.1,
      by simp [List.filterMap_cons, listenerRunOf, stateReadEntriesOf, hih.2.2.1],
      by simp [List.filterMap_cons, listenerRunOf, stateReadEntriesOf, hih.2.2.2]⟩

/-- Characterization of one entry into base dispatch from an idle
store.  The listener set handed to the notification loop is stated as
the listener set of the store after the reducer phase, which the commit
step never touches. -/
theorem dispatch_succ_eq {V P : Type} [DecidableEq V]
    (fuel : Nat) (σ : StoreM V P) (a : Action P)
    (h : σ.isDispatching = false) :
    dispatchFuel (fuel + 1) σ a =
      (let σ1 : StoreM V P := { σ with isDispatching := true }
       let r := runSlices (dispatchFuel fuel) a σ1.root.entries σ1 σ1.slices
       match r.err with
       | some e => ⟨{ r.store with isDispatching := false }, r.trace, some e⟩
       | none =>
          let σc :=
            if r.hasChanged then
              { r.store with
                root := { id := r.store.nextObjId, entries := r.entries,
                          frozen := false },
                nextObjId := r.store.nextObjId + 1,
                isDispatching := false }
            else { r.store with isDispatching := false }
          let n := notifyAll (dispatchFuel fuel) σc r.store.listeners
          ⟨n.store, r.trace ++ n.trace, n.err⟩) := by
  simp only [dispatchFuel, baseDispatchGo, h, Bool.false_eq_true, if_false]
  cases (runSlices (dispatchFuel fuel) a
      ({ σ with isDispatching := true } : StoreM V P).root.entries
      { σ with isDispatching := true }
      ({ σ with isDispatching := true } : StoreM V P).slices).err with
  | some e => rfl
  | none =>
      cases (runSlices (dispatchFuel fuel) a
          ({ σ with isDispatching := true } : StoreM V P).root.entries
          { σ with isDispatching := true }
          ({ σ with isDispatching := true } : StoreM V P).slices).hasChanged
        <;> rfl

/-- One successful dispatch on a store whose listeners only read the
state: the trace lists exactly one invocation per registered listener in
registration order (the reducer phase contributes no listener events),
and every listener read observes the entries of the already replaced
root state. -/
theorem dispatch_readState_listeners {V P : Type} [DecidableEq V]
    (slices : List (String × SliceDef V P)) (root : RootState V)
    (ids : List Nat) (lid nid fuel : Nat) (a : Action P)
    (σ2 : StoreM V P) (tr : List (Event V))
    (h : dispatchFuel (fuel + 1)
        (mkStore slices root (ids.map (fun j => (j, [LStep.readStateStep true])))
          lid nid)
        a = ⟨σ2, tr, none⟩) :
    tr.filterMap listenerRunOf = ids
    ∧ tr.filterMap stateReadEntriesOf = ids.map (fun _ => σ2.root.entries) := by
  have hs := runSlices_of_isDispatching (V := V) (P := P) fuel a root.entries slices
    ⟨slices, root, true, ids.map (fun j => (j, [LStep.readStateStep true])), lid,
      nid⟩ rfl
  rw [dispatch_succ_eq fuel _ a rfl] at h
  dsimp only [mkStore] at h
  cases hre : (runSlices (dispatchFuel fuel) a root.entries
      (⟨slices, root, true, ids.map (fun j => (j, [LStep.readStateStep true])), lid,
        nid⟩ : StoreM V P) slices).err with
  | some e => rw [hre] at h; simp at h
  | none =>
      rw [hre, hs.1] at h
      dsimp only at h
      split at h
      · have hn := notifyAll_readState (dispatchFuel fuel) ids
          (⟨slices,
            { id := nid,
              entries := (runSlices (dispatchFuel fuel) a root.entries
                (⟨slices, root, true,
                  ids.map (fun j => (j, [LStep.readStateStep true])), lid,
                  nid⟩ : StoreM V P) slices).entries,
              frozen := false },
            false, ids.map (fun j => (j, [LStep.readStateStep true])), lid,
            nid + 1⟩ : StoreM V P) rfl
        injection h with h1 h2 h3
        subst h1
        subst h2
        constructor
        · rw [List.filterMap_append, hs.2.1, hn.2.2.1, List.nil_append]
        · rw [List.filterMap_append, hs.2.2, hn.2.2.2, List.nil_append, hn.2.1]
      · have hn := notifyAll_readState (dispatchFuel fuel) ids
          (⟨slices, root, false,
            ids.map (fun j => (j, [LStep.readStateStep true])), lid,
            nid⟩ : StoreM V P) rfl
        injection h with h1 h2 h3
        subst h1
        subst h2
        constructor
        · rw [List.filterMap_append, hs.2.1, hn.2.2.1, List.nil_append]
        · rw [List.filterMap_append, hs.2.2, hn.2.2.2, List.nil_append, hn.2.1]


/-- Claim C8.  After every dispatch that completes without an exception,
including one that leaves the state referentially unchanged, each
currently registered listener is invoked exactly once, in registration
order, strictly after the state replacement (each listener read observes
the entries of the already replaced root state); and after removing a
listener through the unregister capability, a further dispatch invokes
only the remaining listeners. -/
theorem c8_listener_order_and_unregister {V P : Type} [DecidableEq V]
    (slices : List (String × SliceDef V P)) (root : RootState V)
    (ids : List Nat) (lid nid fuel : Nat) (a : Action P) (i : Nat) :
    (∀ (σ2 : StoreM V P) (tr : List (Event V)),
       dispatchFuel (fuel + 1)
           (mkStore slices root (ids.map (fun j => (j, [LStep.readStateStep true])))
             lid nid) a
         = ⟨σ2, tr, none⟩ →
       tr.filterMap listenerRunOf = ids
       ∧ tr.filterMap stateReadEntriesOf = ids.map (fun _ => σ2.root.entries))
  ∧ (∀ (σ2 : StoreM V P) (tr : List (Event V)),
       dispatchFuel (fuel + 1)
           (unregisterListener
             (mkStore slices root (ids.map (fun j => (j, [LStep.readStateStep true])))
               lid nid) i) a
         = ⟨σ2, tr, none⟩ →
       tr.filterMap listenerRunOf = ids.filter (fun j => j != i)) := by
  constructor
  · intro σ2 tr h
    exact dispatch_readState_listeners slices root ids lid nid fuel a σ2 tr h
  · intro σ2 tr h
    have hu : unregisterListener
        (mkStore slices root (ids.map (fun j => (j, [LStep.readStateStep true])))
          lid nid) i
        = mkStore slices root
            ((ids.filter (fun j => j != i)).map
              (fun j => (j, [LStep.readStateStep true]))) lid nid := by
      simp only [unregisterListener, mkStore, List.filter_map]
      rfl
    rw [hu] at h
    exact (dispatch_readState_listeners slices root _ lid nid fuel a σ2 tr h).1

/-- Witness for claim C8 at a concrete counter store with listeners 5
and 9: one dispatch invokes both in order, and after unregistering 5 a
further dispatch invokes only 9. -/
theorem c8_witness :
    (dispatchFuel 1
        (mkStore [("counter", counterSlice)]
          { id := 0, entries := [("counter", (0 : Int))], frozen := false }
          ([5, 9].map (fun j => (j, [LStep.readStateStep true]))) 0 1)
        { type := "counter/inc", payload := (0 : Int) }).trace.filterMap
      listenerRunOf = [5, 9]
  ∧ (dispatchFuel 1
        (unregisterListener
          (mkStore [("counter", counterSlice)]
            { id := 0, entries := [("counter", (0 : Int))], frozen := false }
            ([5, 9].map (fun j => (j, [LStep.readStateStep true]))) 0 1) 5)
        { type := "counter/inc", payload := (0 : Int) }).trace.filterMap
      listenerRunOf = [9] :=
  ⟨((c8_listener_order_and_unregister (V := Int) (P := Int)
      [("counter", counterSlice)]
      { id := 0, entries := [("counter", (0 : Int))], frozen := false }
      [5, 9] 0 1 0 { type := "counter/inc", payload := 0 } 5).1 _ _ rfl).1,
   (c8_listener_order_and_unregister (V := Int) (P := Int)
      [("counter", counterSlice)]
      { id := 0, entries := [("counter", (0 : Int))], frozen := false }
      [5, 9] 0 1 0 { type := "counter/inc", payload := 0 } 5).2 _ _ rfl⟩

/-- Claim C10.  Listener notification happens only after the reentrancy
flag has been cleared: a listener of a completed dispatch reads the
state without error (first conjunct, quantified, with the read observing
the replaced state), and a listener may even dispatch without triggering
the reentrancy error (remaining conjuncts, at a concrete store whose
single listener reads the state, letting a failure propagate, and then
dispatches a counter increment: the outer dispatch completes, a nested
dispatch issued by the listener completes, and no reentrancy error and
no guarded-read error appear anywhere in the trace). -/
theorem c10_listener_after_flag_clear {V P : Type} [DecidableEq V] :
    (∀ (slices : List (String × SliceDef V P)) (root : RootState V)
       (j lid nid fuel : Nat) (a : Action P) (σ2 : StoreM V P)
       (tr : List (Event V)),
       dispatchFuel (fuel + 1)
           (mkStore slices root [(j, [LStep.readStateStep true])] lid nid) a
         = ⟨σ2, tr, none⟩ →
       tr.filterMap stateReadEntriesOf = [σ2.root.entries])
  ∧ (dispatchFuel 3 c10Store { type := "counter/inc", payload := (0 : Int) }).err
      = none
  ∧ Event.innerDispatchOk ∈
      (dispatchFuel 3 c10Store { type := "counter/inc", payload := (0 : Int) }).trace
  ∧ ((dispatchFuel 3 c10Store
        { type := "counter/inc", payload := (0 : Int) }).trace.all
       (fun e => !(e == Event.innerDispatchErr JsError.reentrantDispatch)
          && !(e == Event.stateReadErr JsError.cannotCallWhenDispatching))) = true := by
  refine ⟨?_, by decide, by decide, by decide⟩
  intro slices root j lid nid fuel a σ2 tr h
  exact (dispatch_readState_listeners slices root [j] lid nid fuel a σ2 tr h).2

/-- Witness for claim C10: a concrete dispatch on a store with one
state-reading listener, whose read observes the committed entries. -/
theorem c10_witness :
    (dispatchFuel 1
        (mkStore ([] : List (String × SliceDef Int Int))
          { id := 0, entries := [], frozen := false }
          [(5, [LStep.readStateStep true])] 0 1)
        { type := "noop", payload := (0 : Int) }).trace.filterMap
      stateReadEntriesOf = [[]] :=
  (c10_listener_after_flag_clear (V := Int) (P := Int)).1 []
    { id := 0, entries := [], frozen := false } 5 0 1 0
    { type := "noop", payload := 0 } _ _ rfl


/-- Claim C2.  A slice handler that synchronously calls the store
dispatch during its own execution sees that inner dispatch fail with the
reentrancy error (the handler observes and survives the failure, as the
claim presumes by having the handler keep executing), and the outer
dispatch still completes with its state change committed: the result
records the inner reentrancy failure in the trace, carries no error, and
the committed root is the freshly allocated object holding the mutated
sub-state. -/
theorem c2_reentrant_inner_dispatch {V P : Type} [DecidableEq V]
    (init v : V) (f : V → V) (hf : f v ≠ v) (a aInner : Action P)
    (rid lid nid fuel : Nat) (fz : Bool) :
    dispatchFuel (fuel + 1)
        (mkStore [("counter",
            scriptSlice init a.type
              [HStep.innerDispatch aInner true, HStep.mutate f])]
          { id := rid, entries := [("counter", v)], frozen := fz } [] lid nid) a
      = ⟨mkStore [("counter",
            scriptSlice init a.type
              [HStep.innerDispatch aInner true, HStep.mutate f])]
          { id := nid, entries := [("counter", f v)], frozen := false }
          [] lid (nid + 1),
         [Event.innerDispatchErr JsError.reentrantDispatch], none⟩ := by
  rw [dispatch_succ_eq fuel _ a rfl]
  simp [mkStore, scriptSlice, runSlices, runHSteps, notifyAll, List.lookup,
        dispatchFuel_of_isDispatching, hf]

/-- Witness for claim C2: concrete counter store, handler dispatching an
inner action and then incrementing. -/
theorem c2_witness :
    ((0 : Int) + 1 ≠ (0 : Int))
  ∧ dispatchFuel 1
        (mkStore [("counter", scriptSlice (0 : Int) "counter/inc"
            [HStep.innerDispatch { type := "other", payload := (0 : Int) } true,
             HStep.mutate (fun x => x + 1)])]
          { id := 0, entries := [("counter", (0 : Int))], frozen := false } [] 0 1)
        { type := "counter/inc", payload := (0 : Int) }
      = ⟨mkStore [("counter", scriptSlice (0 : Int) "counter/inc"
            [HStep.innerDispatch { type := "other", payload := (0 : Int) } true,
             HStep.mutate (fun x => x + 1)])]
          { id := 1, entries := [("counter", (1 : Int))], frozen := false } [] 0 2,
         [Event.innerDispatchErr JsError.reentrantDispatch], none⟩ :=
  ⟨by decide,
   c2_reentrant_inner_dispatch (0 : Int) (0 : Int) (fun x => x + 1) (by decide)
     { type := "counter/inc", payload := (0 : Int) }
     { type := "other", payload := (0 : Int) } 0 0 1 0 false⟩

/-- Claim C3.  When a slice handler throws during a dispatch, the
identical exception propagates unchanged to the caller of dispatch, the
reentrancy flag is cleared by the guaranteed cleanup (the resulting
store is exactly the idle pre-dispatch store, so later dispatches are
not rejected), the state remains the previously committed root object
(no partial update, although the handler of the first slice had already
completed its mutation for this dispatch), and no listener is notified
(the trace is empty, whatever listeners are registered). -/
theorem c3_handler_throw_no_partial_commit {V P : Type} [DecidableEq V]
    (k1 k2 : String) (i1 i2 v1 v2 : V) (g f : V → V) (msg : String)
    (a : Action P) (rid lid nid fuel : Nat) (fz : Bool)
    (ls : List (Nat × List (LStep P))) :
    dispatchFuel (fuel + 1)
        (mkStore [(k1, scriptSlice i1 a.type [HStep.mutate g]),
                  (k2, scriptSlice i2 a.type
                    [HStep.mutate f, HStep.hthrow msg])]
          { id := rid, entries := [(k1, v1), (k2, v2)], frozen := fz }
          ls lid nid) a
      = ⟨mkStore [(k1, scriptSlice i1 a.type [HStep.mutate g]),
                  (k2, scriptSlice i2 a.type
                    [HStep.mutate f, HStep.hthrow msg])]
          { id := rid, entries := [(k1, v1), (k2, v2)], frozen := fz }
          ls lid nid,
         [], some (.userError msg)⟩ := by
  rw [dispatch_succ_eq fuel _ a rfl]
  simp [mkStore, scriptSlice, runSlices, runHSteps, List.lookup]

/-- Every slice reducer of the store passes an action through unchanged
when its routing table has no entry for the action type; when moreover
every slice key is present in the root entry list, the loop reports no
change, no trace and no error, and leaves the store untouched. -/
theorem runSlices_unmatched {V P : Type} [DecidableEq V]
    (disp : StoreM V P → Action P → StepRes V P) (a : Action P)
    (E : List (String × V)) (slices : List (String × SliceDef V P))
    (hmatch : ∀ kv ∈ slices, kv.2.caseReducers.lookup a.type = none)
    (hpresent : ∀ kv ∈ slices, (E.lookup kv.1).isSome = true) :
    ∀ (σ : StoreM V P),
      (runSlices disp a E σ slices).store = σ
      ∧ (runSlices disp a E σ slices).hasChanged = false
      ∧ (runSlices disp a E σ slices).trace = []
      ∧ (runSlices disp a E σ slices).err = none := by
  induction slices with
  | nil => intro σ; simp [runSlices]
  | cons kv rest ih =>
    intro σ
    obtain ⟨key, sd⟩ := kv
    have h1 := hmatch (key, sd) (List.mem_cons_self _ _)
    have h2 := hpresent (key, sd) (List.mem_cons_self _ _)
    have ihh := ih (fun x hx => hmatch x (List.mem_cons_of_mem _ hx))
      (fun x hx => hpresent x (List.mem_cons_of_mem _ hx)) σ
    obtain ⟨v, hv⟩ := Option.isSome_iff_exists.mp h2
    simp [runSlices, h1, hv, ihh.1, ihh.2.1, ihh.2.2.1, ihh.2.2.2]

/-- Claim C6, amended.  Dispatching an action whose type matches no
handler in any slice leaves the store record itself unchanged, so in
particular the internal root state object is reference-equal to its
prior value (the claim as stated, about the values returned by the state
accessor, fails because the accessor copies; see the counterexample). -/
theorem c6_unmatched_action_preserves_store {V P : Type} [DecidableEq V]
    (slices : List (String × SliceDef V P)) (root : RootState V)
    (lid nid fuel : Nat) (a : Action P)
    (hmatch : ∀ kv ∈ slices, kv.2.caseReducers.lookup a.type = none)
    (hpresent : ∀ kv ∈ slices, (root.entries.lookup kv.1).isSome = true) :
    dispatchFuel (fuel + 1) (mkStore slices root [] lid nid) a
      = ⟨mkStore slices root [] lid nid, [], none⟩ := by
  rw [dispatch_succ_eq fuel _ a rfl]
  have hr := runSlices_unmatched (dispatchFuel fuel) a root.entries slices hmatch
    hpresent ⟨slices, root, true, [], lid, nid⟩
  dsimp only [mkStore]
  rw [hr.2.2.2, hr.1, hr.2.1]
  simp [notifyAll, hr.2.2.1]

/-- Counterexample for claim C6 as stated: around a dispatch of an
unmatched action, the two snapshots returned by the state accessor are
not reference-equal objects (they carry distinct identities, because the
accessor returns a fresh frozen shallow copy on every call), even though
their entries coincide, the dispatch succeeded, and the dispatch left
the internal root object untouched. -/
theorem c6_counterexample_snapshots_not_reference_equal :
    (stateFn demoStore).1.toOption
      ≠ (stateFn (dispatchFuel 2 (stateFn demoStore).2
          { type := "noop", payload := (0 : Int) }).store).1.toOption
  ∧ (stateFn demoStore).1.toOption.map RootState.entries
      = (stateFn (dispatchFuel 2 (stateFn demoStore).2
          { type := "noop", payload := (0 : Int) }).store).1.toOption.map
          RootState.entries
  ∧ (dispatchFuel 2 (stateFn demoStore).2
      { type := "noop", payload := (0 : Int) }).err = none
  ∧ (dispatchFuel 2 (stateFn demoStore).2
      { type := "noop", payload := (0 : Int) }).store.root = demoStore.root :=
  ⟨by decide, by decide, by decide, by decide⟩

/-- Witness for the amended claim C6 at the concrete counter store. -/
theorem c6_witness :
    dispatchFuel 1
        (mkStore [("counter", counterSlice)]
          { id := 0, entries := [("counter", (0 : Int))], frozen := false } [] 0 1)
        { type := "noop", payload := (0 : Int) }
      = ⟨mkStore [("counter", counterSlice)]
          { id := 0, entries := [("counter", (0 : Int))], frozen := false } [] 0 1,
         [], none⟩ :=
  c6_unmatched_action_preserves_store [("counter", counterSlice)]
    { id := 0, entries := [("counter", (0 : Int))], frozen := false } 0 1 0
    { type := "noop", payload := 0 }
    (by intro kv hkv; rw [List.mem_singleton] at hkv; subst hkv; rfl)
    (by intro kv hkv; rw [List.mem_singleton] at hkv; subst hkv; rfl)

end ReduceMe
